import Mathlib

/-!
Verification development for the elastic-serverless-agent repository.

The definitions below are shallow embeddings of the Python sources:
`src/share/include_exlude.py` (IncludeExcludeFilter), `src/handlers/aws/sqs_trigger.py`
(`_handle_sqs_event`), `src/shippers/es.py` (ElasticsearchShipper), and
`src/share/config.py` (Config.get_input_by_type_and_id).
-/

set_option maxRecDepth 20000

/-! ## Include/exclude filter (src/share/include_exlude.py) -/

/-- ScanResult models the outcome of one hyperscan multi-pattern scan over a
message: either the scan raised a runtime error (`hyperscan.error`), or it
completed and reported whether any pattern of the rule set matched. -/
inductive ScanResult where
  | ok (matched : Bool)
  | err
deriving DecidableEq, Repr

/-- Scan models the opaque hyperscan matcher: given the compiled pattern list of
a rule and a message, it either errors or reports whether some pattern matched. -/
def Scan : Type := List String → String → ScanResult

/-- IncludeExcludeFilter mirrors the state built by
`IncludeExcludeFilter.__init__`: the optional compiled include and exclude rule
sets (each kept as its structural pattern list) and the three dispatch flags
computed at construction time. -/
structure IncludeExcludeFilter where
  includeRules : Option (List String)
  excludeRules : Option (List String)
  alwaysYield : Bool
  includeOnly : Bool
  excludeOnly : Bool
deriving DecidableEq, Repr

/-- Embedding of `IncludeExcludeFilter.__init__`: a rule set is compiled only
when the corresponding pattern list is given (not None) and non-empty, and the
`_always_yield` / `_include_only` / `_exclude_only` flags are derived from which
rule sets were compiled. -/
def IncludeExcludeFilter.make (include_patterns exclude_patterns : Option (List String)) :
    IncludeExcludeFilter :=
  let ir : Option (List String) :=
    match include_patterns with
    | some ps => if 0 < ps.length then some ps else none
    | none => none
  let er : Option (List String) :=
    match exclude_patterns with
    | some ps => if 0 < ps.length then some ps else none
    | none => none
  { includeRules := ir
    excludeRules := er
    alwaysYield := ir.isNone && er.isNone
    includeOnly := ir.isSome && er.isNone
    excludeOnly := er.isSome && ir.isNone }

/-- Embedding of `IncludeExcludeFilter._is_included`: a completed scan yields
whether some include pattern matched; a hyperscan runtime error yields True. -/
def isIncluded (scan : Scan) (rules : List String) (message : String) : Bool :=
  match scan rules message with
  | ScanResult.err => true
  | ScanResult.ok matched => matched

/-- Embedding of `IncludeExcludeFilter._is_excluded`: a completed scan yields
whether some exclude pattern matched; a hyperscan runtime error yields True. -/
def isExcluded (scan : Scan) (rules : List String) (message : String) : Bool :=
  match scan rules message with
  | ScanResult.err => true
  | ScanResult.ok matched => matched

/-- Embedding of `IncludeExcludeFilter.filter`. The branches follow the source:
always-yield, include-only, exclude-only, and the combined case in which an
exclude verdict rejects before the include rules are consulted. The source
asserts the scanned rule set is present in each branch; the `none` fallbacks
are unreachable for filters built by `IncludeExcludeFilter.make`. -/
def IncludeExcludeFilter.filter (f : IncludeExcludeFilter) (scan : Scan) (message : String) :
    Bool :=
  if f.alwaysYield then true
  else if f.includeOnly then
    match f.includeRules with
    | some rules => isIncluded scan rules message
    | none => true
  else if f.excludeOnly then
    match f.excludeRules with
    | some rules => !isExcluded scan rules message
    | none => true
  else
    match f.excludeRules, f.includeRules with
    | some erules, some irules =>
      if isExcluded scan erules message then false
      else isIncluded scan irules message
    | _, _ => true

/-- Boolean test of whether `pat` occurs as a prefix of `l`, over raw chars. -/
def prefixOfChars : List Char → List Char → Bool
  | [], _ => true
  | _ :: _, [] => false
  | a :: as, b :: bs => a == b && prefixOfChars as bs

/-- Boolean test of whether `pat` occurs as a contiguous substring of `l`. -/
def infixOfChars (pat : List Char) : List Char → Bool
  | [] => prefixOfChars pat []
  | b :: bs => prefixOfChars pat (b :: bs) || infixOfChars pat bs

/-- Concrete matcher used as a stand-in for hyperscan on literal (metacharacter
free) patterns, where a regex match is exactly a substring occurrence: the scan
completes and reports whether some pattern occurs in the message. -/
def substringScan : Scan := fun patterns message =>
  ScanResult.ok (patterns.any (fun p => infixOfChars p.data message.data))

/-- Scan that always raises, modelling a hyperscan runtime error on the message. -/
def errScan : Scan := fun _ _ => ScanResult.err

/-! ## SQS trigger driver (src/handlers/aws/sqs_trigger.py) -/

/-- StorageEvent is one `(log_event, beginning_offset, ending_offset)` tuple
yielded by `storage.get_by_lines`. -/
structure StorageEvent where
  logEvent : String
  beginningOffset : Nat
  endingOffset : Nat
deriving DecidableEq, Repr

/-- EsEvent models the fields of the `es_event` dict built by
`_handle_sqs_event` that the shipper later reads: the decoded message,
`fields.log.offset` (the beginning offset), and the s3 identity fields. -/
structure EsEvent where
  message : String
  offset : Nat
  bucketName : String
  bucketArn : String
  objectKey : String
  awsRegion : String
deriving DecidableEq, Repr

/-- S3Record models one record of the decoded SQS body, with the fields read by
`_handle_sqs_event` (region, bucket arn, object key, resume cursor). -/
structure S3Record where
  awsRegion : String
  bucketArn : String
  objectKey : String
  lastEndingOffset : Nat
  lastBeginningOffset : Nat
deriving DecidableEq, Repr

/-- SqsRecord models one SQS record: its `eventSourceARN` and the s3 records of
its decoded body. -/
structure SqsRecord where
  eventSourceARN : String
  s3Records : List S3Record
deriving DecidableEq, Repr

/-- Emitted models one yielded tuple
`(es_event, beginning_offset, ending_offset, sqs_record_n, s3_record_n)`. -/
structure Emitted where
  esEvent : EsEvent
  beginningOffset : Nat
  endingOffset : Nat
  sqsRecordN : Nat
  s3RecordN : Nat
deriving DecidableEq, Repr

/-- Storage abstracts `storage.get_by_lines`: from a bucket name, object key,
`range_start` and `last_beginning_offset` it produces the event stream. -/
def Storage : Type := String → String → Nat → Nat → List StorageEvent

/-- Embedding of the skip loop inside `_handle_sqs_event`: events whose
`ending_offset` is strictly below `last_ending_offset` hit `continue` and are
dropped; every other event is kept in stream order. -/
def skipEvents (lastEndingOffset : Nat) : List StorageEvent → List StorageEvent
  | [] => []
  | e :: rest =>
    if e.endingOffset < lastEndingOffset then skipEvents lastEndingOffset rest
    else e :: skipEvents lastEndingOffset rest

/-- Construction of the `es_event` payload for one surviving storage event, as
in the body of the loop of `_handle_sqs_event`. -/
def buildEsEvent (bucketName bucketArn objectKey awsRegion : String)
    (se : StorageEvent) : EsEvent :=
  { message := se.logEvent
    offset := se.beginningOffset
    bucketName := bucketName
    bucketArn := bucketArn
    objectKey := objectKey
    awsRegion := awsRegion }

/-- Embedding of the per-s3-record body of `_handle_sqs_event`: an empty bucket
arn or object key raises before any storage access; otherwise the storage
stream is read and the surviving events are yielded with their offsets and
record indices. -/
def handleS3Record (getBucketNameFromArn : String → String) (storage : Storage)
    (sqsRecordN s3RecordN : Nat) (r : S3Record) : Except String (List Emitted) :=
  if r.bucketArn.length = 0 || r.objectKey.length = 0 then
    Except.error "Cannot find bucket_arn or object_key for s3"
  else
    let bucketName := getBucketNameFromArn r.bucketArn
    let events := storage bucketName r.objectKey r.lastEndingOffset r.lastBeginningOffset
    Except.ok ((skipEvents r.lastEndingOffset events).map (fun se =>
      { esEvent := buildEsEvent bucketName r.bucketArn r.objectKey r.awsRegion se
        beginningOffset := se.beginningOffset
        endingOffset := se.endingOffset
        sqsRecordN := sqsRecordN
        s3RecordN := s3RecordN }))

/-- Input models `share.config.Input` as read by the trigger handler. -/
structure Input where
  type : String
  id : String
deriving DecidableEq, Repr

/-- Config models `share.config.Config._inputs`, a dict from input type to a
dict from input id to Input, as an association list. -/
structure Config where
  inputs : List (String × List Input)
deriving DecidableEq, Repr

/-- Embedding of `Config.get_input_by_type_and_id`: None when the type is not
configured or the id is not present under that type. -/
def Config.getInputByTypeAndId (c : Config) (input_type input_id : String) : Option Input :=
  match c.inputs.find? (fun kv => kv.1 == input_type) with
  | none => none
  | some kv => kv.2.find? (fun i => i.id == input_id)

/-- Inner loop of `_handle_sqs_event` over the s3 records of one SQS record:
records are processed in order, each either raising (which aborts the whole
generator, keeping the events already yielded) or contributing its events. -/
def handleS3Records (getBucketNameFromArn : String → String) (storage : Storage)
    (sqsRecordN : Nat) : Nat → List S3Record → List Emitted × Option String
  | _, [] => ([], none)
  | s3RecordN, r :: rest =>
    match handleS3Record getBucketNameFromArn storage sqsRecordN s3RecordN r with
    | Except.error e => ([], some e)
    | Except.ok evs =>
      let tail := handleS3Records getBucketNameFromArn storage sqsRecordN (s3RecordN + 1) rest
      (evs ++ tail.1, tail.2)

/-- Embedding of the generator `_handle_sqs_event` as the list of yielded
tuples together with an optional raised error. A record whose
`eventSourceARN` has no configured "sqs" input makes the generator `return`:
iteration stops normally, with no error and no further events. -/
def handleSqsEvent (config : Config) (getBucketNameFromArn : String → String)
    (storage : Storage) : Nat → List SqsRecord → List Emitted × Option String
  | _, [] => ([], none)
  | sqsRecordN, sr :: rest =>
    match config.getInputByTypeAndId "sqs" sr.eventSourceARN with
    | none => ([], none)
    | some _ =>
      match handleS3Records getBucketNameFromArn storage sqsRecordN 0 sr.s3Records with
      | (evs, some e) => (evs, some e)
      | (evs, none) =>
        let tail := handleSqsEvent config getBucketNameFromArn storage (sqsRecordN + 1) rest
        (evs ++ tail.1, tail.2)

/-- Modelled from the spec: the line segmentation behind `storage.get_by_lines`
(the `by_line` decorator of `share`, not present under src/) produces events
that "are strictly ordered and non-overlapping within one pass", so their
ending offsets are strictly increasing along the stream. -/
def StrictlyOrderedEvents (events : List StorageEvent) : Prop :=
  events.Pairwise (fun a b => a.endingOffset < b.endingOffset)

/-! ## SHA-256 (embedding of hashlib.sha256 as used by the shipper) -/

/-- Truncation of a natural number to a 32-bit word. -/
def w32 (n : Nat) : Nat := n % 4294967296

/-- Right rotation of a 32-bit word by `k` positions. -/
def rotr32 (k x : Nat) : Nat := x / 2 ^ k + x % 2 ^ k * 2 ^ (32 - k)

/-- Bitwise complement of a 32-bit word. -/
def not32 (x : Nat) : Nat := x ^^^ 4294967295

/-- SHA-256 Ch function. -/
def shaCh (x y z : Nat) : Nat := (x &&& y) ^^^ (not32 x &&& z)

/-- SHA-256 Maj function. -/
def shaMaj (x y z : Nat) : Nat := (x &&& y) ^^^ (x &&& z) ^^^ (y &&& z)

/-- SHA-256 big sigma 0. -/
def bigSigma0 (x : Nat) : Nat := rotr32 2 x ^^^ rotr32 13 x ^^^ rotr32 22 x

/-- SHA-256 big sigma 1. -/
def bigSigma1 (x : Nat) : Nat := rotr32 6 x ^^^ rotr32 11 x ^^^ rotr32 25 x

/-- SHA-256 small sigma 0. -/
def smallSigma0 (x : Nat) : Nat := rotr32 7 x ^^^ rotr32 18 x ^^^ x / 2 ^ 3

/-- SHA-256 small sigma 1. -/
def smallSigma1 (x : Nat) : Nat := rotr32 17 x ^^^ rotr32 19 x ^^^ x / 2 ^ 10

/-- SHA-256 round constants. -/
def shaK : List Nat :=
  [1116352408, 1899447441, 3049323471, 3921009573, 961987163,
   1508970993, 2453635748, 2870763221, 3624381080, 310598401,
   607225278, 1426881987, 1925078388, 2162078206, 2614888103,
   3248222580, 3835390401, 4022224774, 264347078, 604807628,
   770255983, 1249150122, 1555081692, 1996064986, 2554220882,
   2821834349, 2952996808, 3210313671, 3336571891, 3584528711,
   113926993, 338241895, 666307205, 773529912, 1294757372,
   1396182291, 1695183700, 1986661051, 2177026350, 2456956037,
   2730485921, 2820302411, 3259730800, 3345764771, 3516065817,
   3600352804, 4094571909, 275423344, 430227734, 506948616,
   659060556, 883997877, 958139571, 1322822218, 1537002063,
   1747873779, 1955562222, 2024104815, 2227730452, 2361852424,
   2428436474, 2756734187, 3204031479, 3329325298]

/-- SHA-256 initial hash value. -/
def shaInitH : List Nat :=
  [1779033703, 3144134277, 1013904242, 2773480762,
   1359893119, 2600822924, 528734635, 1541459225]

/-- Big-endian byte decomposition of `n` into `k` bytes. -/
def bytesBE (k n : Nat) : List Nat :=
  (List.range k).map (fun i => n / 2 ^ (8 * (k - 1 - i)) % 256)

/-- SHA-256 message padding: append 0x80, zero bytes, and the 64-bit big-endian
bit length, reaching a multiple of 64 bytes. -/
def padMessage (msg : List Nat) : List Nat :=
  let len := msg.length
  let zeros := (64 - (len + 9) % 64) % 64
  msg ++ [128] ++ List.replicate zeros 0 ++ bytesBE 8 (8 * len)

/-- Splitting of a byte list into 64-byte blocks. -/
def chunks64 (l : List Nat) : List (List Nat) :=
  (List.range ((l.length + 63) / 64)).map (fun i => (l.drop (64 * i)).take 64)

/-- The 16 initial 32-bit words of a 64-byte block, big-endian. -/
def wordsOf (block : List Nat) : List Nat :=
  (List.range 16).map (fun i =>
    block.getD (4 * i) 0 * 16777216 + block.getD (4 * i + 1) 0 * 65536 +
      block.getD (4 * i + 2) 0 * 256 + block.getD (4 * i + 3) 0)

/-- Extension of the message schedule by `k` further words. -/
def extendSchedule (w : Array Nat) : Nat → Array Nat
  | 0 => w
  | k + 1 =>
    let n := w.size
    let nw := w32 (smallSigma1 (w.getD (n - 2) 0) + w.getD (n - 7) 0 +
      smallSigma0 (w.getD (n - 15) 0) + w.getD (n - 16) 0)
    extendSchedule (w.push nw) k

/-- The full 64-word message schedule of one block. -/
def schedule (block : List Nat) : List Nat :=
  (extendSchedule (List.toArray (wordsOf block)) 48).toList

/-- Working state of the SHA-256 compression function. -/
structure Sha256State where
  a : Nat
  b : Nat
  c : Nat
  d : Nat
  e : Nat
  f : Nat
  g : Nat
  h : Nat
deriving DecidableEq, Repr

/-- One SHA-256 compression round. -/
def roundStep (st : Sha256State) (ki wi : Nat) : Sha256State :=
  let t1 := w32 (st.h + bigSigma1 st.e + shaCh st.e st.f st.g + ki + wi)
  let t2 := w32 (bigSigma0 st.a + shaMaj st.a st.b st.c)
  { a := w32 (t1 + t2), b := st.a, c := st.b, d := st.c,
    e := w32 (st.d + t1), f := st.e, g := st.f, h := st.g }

/-- Folding of the 64 rounds over the paired constants and schedule words. -/
def compressRounds : List (Nat × Nat) → Sha256State → Sha256State
  | [], st => st
  | (ki, wi) :: rest, st => compressRounds rest (roundStep st ki wi)

/-- Compression of one 64-byte block into the running hash value. -/
def compressBlock (hs : List Nat) (block : List Nat) : List Nat :=
  let st0 : Sha256State :=
    { a := hs.getD 0 0, b := hs.getD 1 0, c := hs.getD 2 0, d := hs.getD 3 0,
      e := hs.getD 4 0, f := hs.getD 5 0, g := hs.getD 6 0, h := hs.getD 7 0 }
  let st := compressRounds (shaK.zip (schedule block)) st0
  [w32 (hs.getD 0 0 + st.a), w32 (hs.getD 1 0 + st.b), w32 (hs.getD 2 0 + st.c),
   w32 (hs.getD 3 0 + st.d), w32 (hs.getD 4 0 + st.e), w32 (hs.getD 5 0 + st.f),
   w32 (hs.getD 6 0 + st.g), w32 (hs.getD 7 0 + st.h)]

/-- The eight 32-bit words of the SHA-256 digest of a byte list. -/
def sha256Words (msg : List Nat) : List Nat :=
  (chunks64 (padMessage msg)).foldl compressBlock shaInitH

/-- UTF-8 encoding of one character, as byte values. -/
def charUtf8 (c : Char) : List Nat :=
  let n := c.toNat
  if n < 128 then [n]
  else if n < 2048 then [192 + n / 64, 128 + n % 64]
  else if n < 65536 then [224 + n / 4096, 128 + n / 64 % 64, 128 + n % 64]
  else [240 + n / 262144, 128 + n / 4096 % 64, 128 + n / 64 % 64, 128 + n % 64]

/-- UTF-8 encoding of a string, as byte values (the embedding of
`str.encode("UTF-8")`). -/
def utf8Bytes (s : String) : List Nat := (s.data.map charUtf8).flatten

/-- Lower-case hexadecimal digit for a value below 16. -/
def hexDigitChar (n : Nat) : Char :=
  if n < 10 then Char.ofNat (48 + n) else Char.ofNat (87 + n)

/-- Eight-character lower-case hexadecimal rendering of a 32-bit word. -/
def wordToHex (n : Nat) : List Char :=
  (List.range 8).map (fun i => hexDigitChar (n / 16 ^ (7 - i) % 16))

/-- Embedding of `hashlib.sha256(...).hexdigest()` over a string input. -/
def sha256Hex (s : String) : String :=
  String.mk (((sha256Words (utf8Bytes s)).map wordToHex).flatten)

set_option maxHeartbeats 2000000 in
/-- Validation of the SHA-256 embedding against the standard empty-message
test vector of FIPS 180-4. -/
theorem sha256Hex_empty_vector :
    sha256Hex "" = "e3b0c44298fc1c149afbf4c8996fb92427ae41e4649b934ca495991b7852b855" := by
  decide

set_option maxHeartbeats 2000000 in
/-- Validation of the SHA-256 embedding against the standard "abc" test vector
of FIPS 180-4. -/
theorem sha256Hex_abc_vector :
    sha256Hex "abc" = "ba7816bf8f01cfea414140de5dae2223b00361a396177a9cb410ff61f20015ad" := by
  decide

/-! ## Elasticsearch shipper (src/shippers/es.py) -/

/-- Decimal digit characters of a natural number, most significant first. -/
def decDigits (n : Nat) : List Char :=
  if n < 10 then [Nat.digitChar n]
  else decDigits (n / 10) ++ [Nat.digitChar (n % 10)]
decreasing_by
  exact Nat.div_lt_self (by omega) (by omega)

/-- Embedding of the Python format spec `f"{offset:012d}"` for a natural
number: the decimal digits, left padded with zeros to width 12. -/
def zeroPad12 (n : Nat) : String :=
  let ds := decDigits n
  String.mk (List.replicate (12 - ds.length) '0' ++ ds)

/-- Embedding of `ElasticsearchShipper._s3_object_id`: the first ten hex
characters of the SHA-256 of the bucket arn concatenated with the object key,
a dash, and the event offset zero padded to twelve decimal digits. -/
def s3ObjectId (event_payload : EsEvent) : String :=
  let src := event_payload.bucketArn ++ event_payload.objectKey
  let hexPre := (sha256Hex src).take 10
  (hexPre ++ "-") ++ zeroPad12 event_payload.offset

/-- EsAction models one element of `ElasticsearchShipper._bulk_actions`: the
event payload with the `_op_type`, `_index` and `_id` keys set by `send`. -/
structure EsAction where
  payload : EsEvent
  opType : String
  index : String
  id : String
deriving DecidableEq, Repr

/-- The `_bulk_batch_size` threshold of ElasticsearchShipper. -/
def bulkBatchSize : Nat := 10000

/-- The action that `ElasticsearchShipper.send` appends for one event: the
enriched payload with create-only op type, the shipper index, and the
deterministic identifier. -/
def mkEsAction (esIndex : String) (e : EsEvent) : EsAction :=
  { payload := e, opType := "create", index := esIndex, id := s3ObjectId e }

/-- Embedding of `ElasticsearchShipper.send` on the pending action buffer:
the event's action is appended; once the buffer reaches the batch size it is
bulk written (the written batch is returned) and emptied. -/
def ElasticsearchShipper.send (esIndex : String) (bulkActions : List EsAction)
    (e : EsEvent) : List EsAction × Option (List EsAction) :=
  let actions := bulkActions ++ [mkEsAction esIndex e]
  if actions.length < bulkBatchSize then (actions, none)
  else ([], some actions)

/-- Embedding of `ElasticsearchShipper.flush`: the pending buffer is bulk
written only when it holds more than one action, and is emptied either way. -/
def ElasticsearchShipper.flush (bulkActions : List EsAction) :
    List EsAction × Option (List EsAction) :=
  if bulkActions.length > 1 then ([], some bulkActions)
  else ([], none)

/-! ## Lexicographic order on identifier strings -/

/-- Lexicographic less-or-equal on character lists, comparing code points. -/
def lexLeChars : List Char → List Char → Bool
  | [], _ => true
  | _ :: _, [] => false
  | c :: cs, d :: ds =>
    if c.toNat = d.toNat then lexLeChars cs ds else decide (c.toNat < d.toNat)

/-- Lexicographic less-or-equal on strings. -/
def strLexLe (s t : String) : Bool := lexLeChars s.data t.data

/-- Value of a big-endian list of decimal digit characters. -/
def digitsVal : List Char → Nat
  | [] => 0
  | c :: cs => (c.toNat - 48) * 10 ^ cs.length + digitsVal cs

/-- Predicate stating every character of the list is a decimal digit. -/
def AllDigits (l : List Char) : Prop := ∀ c ∈ l, 48 ≤ c.toNat ∧ c.toNat ≤ 57

/-! ## Helper lemmas -/

theorem skipEvents_of_all_ge (cursor : Nat) (l : List StorageEvent)
    (h : ∀ e ∈ l, ¬ e.endingOffset < cursor) : skipEvents cursor l = l := by
  induction l with
  | nil => rfl
  | cons a rest ih =>
    have ha : ¬ a.endingOffset < cursor := h a (by simp)
    simp [skipEvents, ha, ih (fun e he => h e (by simp [he]))]

theorem mem_skipEvents_ge (cursor : Nat) (l : List StorageEvent) :
    ∀ e ∈ skipEvents cursor l, cursor ≤ e.endingOffset := by
  induction l with
  | nil => simp [skipEvents]
  | cons a rest ih =>
    by_cases hc : a.endingOffset < cursor
    · simpa [skipEvents, hc] using ih
    · intro e he
      rw [skipEvents, if_neg hc] at he
      rcases List.mem_cons.mp he with h1 | h1
      · subst h1; omega
      · exact ih e h1

theorem skipEvents_eq_dropWhile (cursor : Nat) (l : List StorageEvent)
    (h : List.Pairwise (fun a b => a.endingOffset < b.endingOffset) l) :
    skipEvents cursor l = l.dropWhile (fun e => decide (e.endingOffset < cursor)) := by
  induction l with
  | nil => rfl
  | cons a rest ih =>
    rcases List.pairwise_cons.mp h with ⟨ha, hrest⟩
    by_cases hc : a.endingOffset < cursor
    · rw [skipEvents, if_pos hc, List.dropWhile_cons_of_pos (by simpa using hc)]
      exact ih hrest
    · rw [skipEvents, if_neg hc, List.dropWhile_cons_of_neg (by simpa using hc)]
      have hall : ∀ e ∈ rest, ¬ e.endingOffset < cursor := by
        intro e he
        have := ha e he
        omega
      rw [skipEvents_of_all_ge cursor rest hall]

/-! ## Claim theorems -/

/-- C1: for every resume cursor and every event stream produced by
`storage.get_by_lines` (whose ending offsets are strictly increasing, as the
spec states for lines within one pass), the driver's skip loop emits no event
whose `ending_offset` is strictly below `last_ending_offset`, and the emitted
sequence is exactly the suffix starting at the first event in stream order
whose `ending_offset` reaches the cursor, with all later events unchanged and
in order. -/
theorem C1_resume_skip (cursor : Nat) (events : List StorageEvent)
    (h : StrictlyOrderedEvents events) :
    skipEvents cursor events
        = events.dropWhile (fun e => decide (e.endingOffset < cursor))
    ∧ ∀ e ∈ skipEvents cursor events, cursor ≤ e.endingOffset :=
  ⟨skipEvents_eq_dropWhile cursor events h, mem_skipEvents_ge cursor events⟩

theorem C1_resume_skip_witness :
    skipEvents 6 [⟨"a", 0, 5⟩, ⟨"b", 5, 10⟩]
        = List.dropWhile (fun e => decide (e.endingOffset < 6)) [⟨"a", 0, 5⟩, ⟨"b", 5, 10⟩]
    ∧ ∀ e ∈ skipEvents 6 [⟨"a", 0, 5⟩, ⟨"b", 5, 10⟩], 6 ≤ e.endingOffset :=
  C1_resume_skip 6 [⟨"a", 0, 5⟩, ⟨"b", 5, 10⟩]
    (by simp only [StrictlyOrderedEvents]; decide)

/-- C2: with both rule sets configured, an exclude match rejects regardless of
the include patterns, and with no exclude match the verdict is the include
match; concretely, include=["message"], exclude=["message"] on "a message"
yields False. -/
theorem C2_exclude_priority (scan : Scan) (inc exc : List String) (msg : String)
    (ib eb : Bool) (hinc : 0 < inc.length) (hexc : 0 < exc.length)
    (hi : scan inc msg = ScanResult.ok ib) (he : scan exc msg = ScanResult.ok eb) :
    IncludeExcludeFilter.filter (IncludeExcludeFilter.make (some inc) (some exc)) scan msg
      = (!eb && ib)
    ∧ IncludeExcludeFilter.filter
        (IncludeExcludeFilter.make (some ["message"]) (some ["message"])) substringScan
        "a message" = false := by
  constructor
  · simp only [IncludeExcludeFilter.make, IncludeExcludeFilter.filter, if_pos hinc,
      if_pos hexc, isExcluded, isIncluded, hi, he]
    cases eb <;> cases ib <;> simp
  · decide

theorem C2_exclude_priority_witness :
    IncludeExcludeFilter.filter
        (IncludeExcludeFilter.make (some ["message"]) (some ["message"])) substringScan
        "a message" = (!true && true)
    ∧ IncludeExcludeFilter.filter
        (IncludeExcludeFilter.make (some ["message"]) (some ["message"])) substringScan
        "a message" = false :=
  C2_exclude_priority substringScan ["message"] ["message"] "a message" true true
    (by decide) (by decide) (by decide) (by decide)

/-- C3: the claim states a matcher runtime error always degrades to accept
(True). Evaluating the code on an exclude-only filter whose scan raises shows
`filter` returns False there: `_is_excluded` answers True on `hyperscan.error`,
which the caller reads as "excluded", rejecting the event. -/
theorem C3_exclude_error_rejects :
    IncludeExcludeFilter.filter (IncludeExcludeFilter.make none (some ["pattern"])) errScan
        "a message" = false := by
  decide

/-- C4: the claim states any non-empty pending batch below the threshold is
bulk written by `flush()`. Evaluating the code on a buffer holding exactly one
action shows `flush` performs no bulk write (the `len > 1` guard fails) and
still empties the buffer, discarding the event. -/
theorem C4_flush_single_event_discarded :
    ElasticsearchShipper.flush
        [mkEsAction "logs-generic-default"
          { message := "log line", offset := 0, bucketName := "bucket",
            bucketArn := "arn:aws:s3:::bucket", objectKey := "key.log",
            awsRegion := "eu-central-1" }]
      = ([], none) := by
  rfl

/-- C6: with neither rule set configured `filter` is always True; with only
include rules it is True iff an include pattern matches; with only exclude
rules it is True iff no exclude pattern matches. -/
theorem C6_single_rule_set_policy (scan : Scan) (inc exc : List String) (msg : String)
    (ib eb : Bool) (hinc : 0 < inc.length) (hexc : 0 < exc.length)
    (hi : scan inc msg = ScanResult.ok ib) (he : scan exc msg = ScanResult.ok eb) :
    IncludeExcludeFilter.filter (IncludeExcludeFilter.make none none) scan msg = true
    ∧ IncludeExcludeFilter.filter (IncludeExcludeFilter.make (some inc) none) scan msg = ib
    ∧ IncludeExcludeFilter.filter (IncludeExcludeFilter.make none (some exc)) scan msg
        = !eb := by
  refine ⟨rfl, ?_, ?_⟩
  · simp only [IncludeExcludeFilter.make, IncludeExcludeFilter.filter, if_pos hinc,
      isIncluded, hi]
    simp
  · simp only [IncludeExcludeFilter.make, IncludeExcludeFilter.filter, if_pos hexc,
      isExcluded, he]
    simp

theorem C6_single_rule_set_policy_witness :
    IncludeExcludeFilter.filter (IncludeExcludeFilter.make none none) substringScan
        "a message" = true
    ∧ IncludeExcludeFilter.filter (IncludeExcludeFilter.make (some ["message"]) none)
        substringScan "a message" = true
    ∧ IncludeExcludeFilter.filter (IncludeExcludeFilter.make none (some ["not matching"]))
        substringScan "a message" = !false :=
  C6_single_rule_set_policy substringScan ["message"] ["not matching"] "a message" true false
    (by decide) (by decide) (by decide) (by decide)

/-- C7: a notification record whose bucket arn or object key is the empty
string makes `_handle_sqs_event` raise before any storage read (the result is
the same error for every storage), and no event is emitted for that record. -/
theorem C7_empty_bucket_or_key (getBucketNameFromArn : String → String)
    (storage : Storage) (sqsRecordN s3RecordN : Nat) (r : S3Record)
    (h : r.bucketArn.length = 0 ∨ r.objectKey.length = 0) :
    handleS3Record getBucketNameFromArn storage sqsRecordN s3RecordN r
      = Except.error "Cannot find bucket_arn or object_key for s3" := by
  rcases h with h | h <;> simp [handleS3Record, h]

theorem C7_empty_bucket_or_key_witness :
    handleS3Record (fun a => a) (fun _ _ _ _ => []) 0 0
        { awsRegion := "eu-central-1", bucketArn := "", objectKey := "key.log",
          lastEndingOffset := 0, lastBeginningOffset := 0 }
      = Except.error "Cannot find bucket_arn or object_key for s3" :=
  C7_empty_bucket_or_key (fun a => a) (fun _ _ _ _ => []) 0 0
    { awsRegion := "eu-central-1", bucketArn := "", objectKey := "key.log",
      lastEndingOffset := 0, lastBeginningOffset := 0 } (Or.inl rfl)

/-- C9: a filter constructed with empty pattern lists behaves exactly as one
constructed with absent rule sets: no rule set is compiled, and with both
lists empty `filter` is constantly True for every matcher and message. -/
theorem C9_empty_pattern_lists :
    (∀ ep, IncludeExcludeFilter.make (some []) ep = IncludeExcludeFilter.make none ep)
    ∧ (∀ ip, IncludeExcludeFilter.make ip (some []) = IncludeExcludeFilter.make ip none)
    ∧ (IncludeExcludeFilter.make (some []) (some [])).includeRules = none
    ∧ (IncludeExcludeFilter.make (some []) (some [])).excludeRules = none
    ∧ ∀ (scan : Scan) (msg : String),
        IncludeExcludeFilter.filter (IncludeExcludeFilter.make (some []) (some [])) scan msg
          = true :=
  ⟨fun _ => rfl, fun _ => rfl, rfl, rfl, fun _ _ => rfl⟩

/-- C10: a record whose `eventSourceARN` has no configured "sqs" input makes
the generator return: running the notification with that record inserted
yields exactly what the records before it yield, with no error, and a
notification starting at such a record yields nothing. -/
theorem C10_missing_input_stops (config : Config) (getBucketNameFromArn : String → String)
    (storage : Storage) (r : SqsRecord)
    (h : config.getInputByTypeAndId "sqs" r.eventSourceARN = none) :
    (∀ (pre rest : List SqsRecord) (n : Nat),
        handleSqsEvent config getBucketNameFromArn storage n (pre ++ r :: rest)
          = handleSqsEvent config getBucketNameFromArn storage n pre)
    ∧ ∀ (rest : List SqsRecord) (n : Nat),
        handleSqsEvent config getBucketNameFromArn storage n (r :: rest) = ([], none) := by
  have base : ∀ (rest : List SqsRecord) (n : Nat),
      handleSqsEvent config getBucketNameFromArn storage n (r :: rest) = ([], none) := by
    intro rest n
    simp [handleSqsEvent, h]
  refine ⟨?_, base⟩
  intro pre rest n
  induction pre generalizing n with
  | nil => simpa using base rest n
  | cons s pre ih =>
    simp only [List.cons_append, handleSqsEvent]
    cases hin : config.getInputByTypeAndId "sqs" s.eventSourceARN with
    | none => rfl
    | some inp =>
      cases hrec : handleS3Records getBucketNameFromArn storage n 0 s.s3Records with
      | mk evs err =>
        cases err with
        | none => simp [ih]
        | some e => rfl

theorem C10_missing_input_stops_witness :
    handleSqsEvent { inputs := [("sqs", [{ type := "sqs", id := "arn:configured" }])] }
        (fun a => a) (fun _ _ _ _ => []) 0
        [{ eventSourceARN := "arn:other", s3Records := [] }] = ([], none) :=
  (C10_missing_input_stops { inputs := [("sqs", [{ type := "sqs", id := "arn:configured" }])] }
    (fun a => a) (fun _ _ _ _ => [])
    { eventSourceARN := "arn:other", s3Records := [] } (by decide)).2 [] 0

theorem str_append_left_cancel {a k k2 : String} (h : a ++ k = a ++ k2) : k = k2 := by
  apply String.ext
  have hd := congrArg String.data h
  simp only [String.data_append] at hd
  exact List.append_cancel_left hd

theorem str_append_right_cancel {a a2 k : String} (h : a ++ k = a2 ++ k) : a = a2 := by
  apply String.ext
  have hd := congrArg String.data h
  simp only [String.data_append] at hd
  exact List.append_cancel_right hd

/-- C5: the shipper identifier is the first ten hex characters of the SHA-256
of the bucket arn concatenated with the object key, followed by "-" and the
offset zero padded to twelve decimal digits; equal `(arn, key, offset)` triples
give byte-identical identifiers, and changing the key or the arn changes the
hash input `arn ++ key`. -/
theorem C5_identifier (p : EsEvent) (arn2 key2 : String)
    (hk : p.objectKey ≠ key2) (ha : p.bucketArn ≠ arn2) :
    s3ObjectId p
        = ((sha256Hex (p.bucketArn ++ p.objectKey)).take 10 ++ "-") ++ zeroPad12 p.offset
    ∧ (∀ q : EsEvent, q.bucketArn = p.bucketArn → q.objectKey = p.objectKey →
        q.offset = p.offset → s3ObjectId q = s3ObjectId p)
    ∧ p.bucketArn ++ p.objectKey ≠ p.bucketArn ++ key2
    ∧ p.bucketArn ++ p.objectKey ≠ arn2 ++ p.objectKey := by
  refine ⟨rfl, ?_, ?_, ?_⟩
  · intro q h1 h2 h3
    simp [s3ObjectId, h1, h2, h3]
  · intro hcontra
    exact hk (str_append_left_cancel hcontra)
  · intro hcontra
    exact ha (str_append_right_cancel hcontra)

theorem C5_identifier_witness :
    s3ObjectId
        { message := "m", offset := 42, bucketName := "mybucket",
          bucketArn := "arn:aws:s3:::mybucket", objectKey := "key/file.log",
          awsRegion := "us-east-1" }
        = ((sha256Hex ("arn:aws:s3:::mybucket" ++ "key/file.log")).take 10 ++ "-")
            ++ zeroPad12 42
    ∧ (∀ q : EsEvent, q.bucketArn = "arn:aws:s3:::mybucket" → q.objectKey = "key/file.log" →
        q.offset = 42 →
        s3ObjectId q
          = s3ObjectId
              { message := "m", offset := 42, bucketName := "mybucket",
                bucketArn := "arn:aws:s3:::mybucket", objectKey := "key/file.log",
                awsRegion := "us-east-1" })
    ∧ ("arn:aws:s3:::mybucket" : String) ++ "key/file.log"
        ≠ "arn:aws:s3:::mybucket" ++ "key/file.loh"
    ∧ ("arn:aws:s3:::mybucket" : String) ++ "key/file.log"
        ≠ "arn:aws:s3:::mybuckeu" ++ "key/file.log" :=
  C5_identifier
    { message := "m", offset := 42, bucketName := "mybucket",
      bucketArn := "arn:aws:s3:::mybucket", objectKey := "key/file.log",
      awsRegion := "us-east-1" } "arn:aws:s3:::mybuckeu" "key/file.loh"
    (by decide) (by decide)

theorem toNat_digitChar (n : Nat) (h : n < 10) : (Nat.digitChar n).toNat = 48 + n := by
  interval_cases n <;> decide

theorem lexLeChars_append (pre x y : List Char) :
    lexLeChars (pre ++ x) (pre ++ y) = lexLeChars x y := by
  induction pre with
  | nil => rfl
  | cons c cs ih => simp [lexLeChars, ih]

theorem digitsVal_lt (l : List Char) (h : AllDigits l) : digitsVal l < 10 ^ l.length := by
  induction l with
  | nil => simp [digitsVal]
  | cons c cs ih =>
    have hc := h c (by simp)
    have hcs : AllDigits cs := fun e he => h e (by simp [he])
    have hb := ih hcs
    have h9 : c.toNat - 48 ≤ 9 := by omega
    simp only [digitsVal, List.length_cons]
    calc (c.toNat - 48) * 10 ^ cs.length + digitsVal cs
        ≤ 9 * 10 ^ cs.length + digitsVal cs := by
          exact Nat.add_le_add_right (Nat.mul_le_mul_right _ h9) _
      _ < 9 * 10 ^ cs.length + 10 ^ cs.length := by omega
      _ = 10 ^ (cs.length + 1) := by ring

theorem digitsVal_lt_of_head_lt (c d : Char) (cs ds : List Char)
    (hlen : cs.length = ds.length) (hc : 48 ≤ c.toNat)
    (hxs : AllDigits cs) (hlt : c.toNat < d.toNat) :
    digitsVal (c :: cs) < digitsVal (d :: ds) := by
  have hb := digitsVal_lt cs hxs
  simp only [digitsVal, hlen]
  calc (c.toNat - 48) * 10 ^ ds.length + digitsVal cs
      < (c.toNat - 48) * 10 ^ ds.length + 10 ^ ds.length := by
        exact Nat.add_lt_add_left (hlen ▸ hb) _
    _ = (c.toNat - 48 + 1) * 10 ^ ds.length := by ring
    _ ≤ (d.toNat - 48) * 10 ^ ds.length := by
        exact Nat.mul_le_mul_right _ (by omega)
    _ ≤ (d.toNat - 48) * 10 ^ ds.length + digitsVal ds := Nat.le_add_right _ _

theorem lexLe_digits_iff (x : List Char) : ∀ y : List Char, x.length = y.length →
    AllDigits x → AllDigits y →
    (lexLeChars x y = true ↔ digitsVal x ≤ digitsVal y) := by
  induction x with
  | nil =>
    intro y hlen _ _
    cases y with
    | nil => simp [lexLeChars, digitsVal]
    | cons d ds => simp at hlen
  | cons c cs ih =>
    intro y hlen hx hy
    cases y with
    | nil => simp at hlen
    | cons d ds =>
      have hlen2 : cs.length = ds.length := by simpa using hlen
      have hc := hx c (by simp)
      have hd := hy d (by simp)
      have hxs : AllDigits cs := fun e he => hx e (by simp [he])
      have hys : AllDigits ds := fun e he => hy e (by simp [he])
      by_cases heq : c.toNat = d.toNat
      · rw [lexLeChars, if_pos heq, ih ds hlen2 hxs hys]
        simp only [digitsVal, heq, hlen2]
        set t := (d.toNat - 48) * 10 ^ ds.length with ht
        omega
      · rw [lexLeChars, if_neg heq]
        by_cases hlt : c.toNat < d.toNat
        · have hvv := digitsVal_lt_of_head_lt c d cs ds hlen2 hc.1 hxs hlt
          simp [hlt, Nat.le_of_lt hvv]
        · have hgt : d.toNat < c.toNat := by omega
          have hvv := digitsVal_lt_of_head_lt d c ds cs hlen2.symm hd.1 hys hgt
          have hnot : ¬ digitsVal (c :: cs) ≤ digitsVal (d :: ds) := by omega
          simp [hlt, hnot]

theorem allDigits_decDigits (n : Nat) : AllDigits (decDigits n) := by
  induction n using Nat.strong_induction_on with
  | _ n ih =>
    rw [decDigits]
    by_cases h : n < 10
    · rw [if_pos h]
      intro c hc
      simp at hc
      subst hc
      rw [toNat_digitChar n h]
      omega
    · rw [if_neg h]
      intro c hc
      rcases List.mem_append.mp hc with h1 | h1
      · exact ih (n / 10) (Nat.div_lt_self (by omega) (by omega)) c h1
      · simp at h1
        subst h1
        rw [toNat_digitChar (n % 10) (Nat.mod_lt _ (by omega))]
        have := Nat.mod_lt n (show 0 < 10 by omega)
        omega

theorem digitsVal_append (xs ys : List Char) :
    digitsVal (xs ++ ys) = digitsVal xs * 10 ^ ys.length + digitsVal ys := by
  induction xs with
  | nil => simp [digitsVal]
  | cons c cs ih =>
    rw [List.cons_append, digitsVal, digitsVal, ih, List.length_append]
    ring

theorem digitsVal_decDigits (n : Nat) : digitsVal (decDigits n) = n := by
  induction n using Nat.strong_induction_on with
  | _ n ih =>
    rw [decDigits]
    by_cases h : n < 10
    · rw [if_pos h]
      simp [digitsVal, toNat_digitChar n h]
    · rw [if_neg h]
      rw [digitsVal_append]
      simp [digitsVal, toNat_digitChar (n % 10) (Nat.mod_lt _ (by omega)),
        ih (n / 10) (Nat.div_lt_self (by omega) (by omega))]
      omega

theorem length_decDigits_le (n : Nat) : ∀ k : Nat, 1 ≤ k → n < 10 ^ k →
    (decDigits n).length ≤ k := by
  induction n using Nat.strong_induction_on with
  | _ n ih =>
    intro k hk hlt
    rw [decDigits]
    by_cases h : n < 10
    · rw [if_pos h]
      simpa using hk
    · rw [if_neg h]
      rw [List.length_append]
      have hk2 : 2 ≤ k := by
        by_contra hcon
        have hone : k = 1 := by omega
        subst hone
        simp at hlt
        omega
      have hpow : 10 ^ k = 10 * 10 ^ (k - 1) := by
        conv_lhs => rw [show k = 1 + (k - 1) by omega]
        rw [pow_add, pow_one]
      have hdiv : n / 10 < 10 ^ (k - 1) := by
        apply Nat.div_lt_of_lt_mul
        omega
      have htail := ih (n / 10) (Nat.div_lt_self (by omega) (by omega)) (k - 1)
        (by omega) hdiv
      simp only [List.length_singleton]
      omega

theorem digitsVal_replicate_zero (z : Nat) : digitsVal (List.replicate z '0') = 0 := by
  induction z with
  | zero => rfl
  | succ z ih =>
    have h0 : ('0').toNat - 48 = 0 := rfl
    simp [List.replicate_succ, digitsVal, ih, h0]

theorem zeroPad12_data (n : Nat) :
    (zeroPad12 n).data = List.replicate (12 - (decDigits n).length) '0' ++ decDigits n := rfl

theorem length_zeroPad12 (n : Nat) (h : n < 10 ^ 12) : (zeroPad12 n).data.length = 12 := by
  rw [zeroPad12_data, List.length_append, List.length_replicate]
  have := length_decDigits_le n 12 (by omega) h
  omega

theorem allDigits_zeroPad12 (n : Nat) : AllDigits (zeroPad12 n).data := by
  rw [zeroPad12_data]
  intro c hc
  rcases List.mem_append.mp hc with h1 | h1
  · have hz : c = '0' := List.eq_of_mem_replicate h1
    subst hz
    decide
  · exact allDigits_decDigits n c h1

theorem digitsVal_zeroPad12 (n : Nat) : digitsVal (zeroPad12 n).data = n := by
  rw [zeroPad12_data, digitsVal_append, digitsVal_replicate_zero, digitsVal_decDigits]
  simp

/-- C8: for a fixed source object, identifiers compare lexicographically
exactly as their beginning offsets compare numerically, for all offsets below
the padding capacity 10^12. -/
theorem C8_offset_lex_order (p : EsEvent) (o1 o2 : Nat)
    (h1 : o1 < 10 ^ 12) (h2 : o2 < 10 ^ 12) :
    (strLexLe (s3ObjectId { p with offset := o1 }) (s3ObjectId { p with offset := o2 })
        = true)
      ↔ o1 ≤ o2 := by
  have key : ∀ o : Nat,
      (s3ObjectId { p with offset := o }).data
        = ((sha256Hex (p.bucketArn ++ p.objectKey)).take 10 ++ "-").data
            ++ (zeroPad12 o).data := by
    intro o
    simp only [s3ObjectId, String.data_append]
  simp only [strLexLe, key, lexLeChars_append]
  rw [lexLe_digits_iff _ _ (by rw [length_zeroPad12 o1 h1, length_zeroPad12 o2 h2])
    (allDigits_zeroPad12 o1) (allDigits_zeroPad12 o2)]
  rw [digitsVal_zeroPad12, digitsVal_zeroPad12]

theorem C8_offset_lex_order_witness :
    strLexLe
        (s3ObjectId
          { message := "m", offset := 3, bucketName := "mybucket",
            bucketArn := "arn:aws:s3:::mybucket", objectKey := "key/file.log",
            awsRegion := "us-east-1" })
        (s3ObjectId
          { message := "m", offset := 45, bucketName := "mybucket",
            bucketArn := "arn:aws:s3:::mybucket", objectKey := "key/file.log",
            awsRegion := "us-east-1" })
      = true :=
  (C8_offset_lex_order
    { message := "m", offset := 3, bucketName := "mybucket",
      bucketArn := "arn:aws:s3:::mybucket", objectKey := "key/file.log",
      awsRegion := "us-east-1" } 3 45 (by norm_num) (by norm_num)).mpr (by norm_num)
